import Mathlib

/-!
Shallow embedding of the `rsmpi_derive` descriptor builder
(`src/lib.rs`): the derive macro walks a parsed struct shape and emits an
expression building an MPI `UserDatatype`.  We model the emitted
descriptor expression as a tree (`Datatype`), with the generated
`offset_of_field` code represented symbolically as an (owner, field
designator) pair, and the `unimplemented!` panics as `Except.error`
carrying the panic message.
-/

/-- A field designator: a field name for named records, a 0-based
positional index for tuple structs and tuples
(`f.ident` vs `Index::from(i)` in `src/lib.rs`). -/
inductive Designator where
  | name (s : String)
  | index (i : Nat)
deriving DecidableEq, Repr

/-- The shape of a Rust type as seen by `get_datatype` (`syn::Type`):
fixed-size arrays, tuples, path types (leaves that implement
`Equivalence`), and a catch-all for every other `syn::Type` variant,
carrying a rendering of the type for identification. -/
inductive Ty where
  | array (elem : Ty) (len : Nat)
  | tuple (elems : List Ty)
  | path (s : String)
  | other (desc : String)

/-- The owning type against which an offset is computed: the struct name
(`quote!(#struct_name)`) or, for tuples, the tuple type itself
(`quote!(#tuple)`). -/
inductive Owner where
  | ident (s : String)
  | tupleTy (t : Ty)

/-- The descriptor expression emitted by the macro: a
`UserDatatype::structured(count, blocklengths, offsets, types)` call, a
`UserDatatype::contiguous(len, elem)` call, or a leaf
`<#path as Equivalence>::equivalent_datatype()`.  Offsets are the
symbolic `offset_of_field` applications. -/
inductive Datatype where
  | structured (count : Int) (blocklens : List Int)
      (offsets : List (Owner × Designator)) (types : List Datatype)
  | contiguous (len : Nat) (elem : Datatype)
  | leaf (path : String)

/-- The fields of a struct (`syn::Fields`). -/
inductive Fields where
  | named (fields : List (String × Ty))
  | unnamed (fields : List Ty)
  | unit

/-- The data of a derive input (`syn::Data`). -/
inductive Data where
  | struct_ (fields : Fields)
  | enum_
  | union_

/-- Rust `n as i32` for a `usize` value: truncate to 32 bits, interpret
as two's complement signed. -/
def asI32 (n : Nat) : Int :=
  let m : Int := (n : Int) % 2 ^ 32
  if m < 2 ^ 31 then m else m - 2 ^ 32

/-- Rust `i as usize` for an `i32` value on a 64-bit host: reinterpret
modulo `2 ^ 64`. -/
def i32AsUsize (i : Int) : Nat :=
  (i % 2 ^ 64).toNat

mutual

/-- Embedding of `get_datatype` (`src/lib.rs` lines 97-137).  Arrays
become `contiguous(len, build(elem))`; tuples become
`structured(len, [1; len], offsets-by-index-against-the-tuple,
recursive element descriptors)`; path types defer to the type's own
`equivalent_datatype`; every other type panics with `unimplemented!()`,
modelled as the error `"not implemented"`. -/
def getDatatype : Ty → Except String Datatype
  | .array elem len =>
      match getDatatype elem with
      | .ok e => .ok (.contiguous len e)
      | .error s => .error s
  | .tuple elems =>
      match getDatatypeList elems with
      | .ok types =>
          let len := elems.length
          .ok (.structured (asI32 len)
            (List.replicate (i32AsUsize (asI32 len)) 1)
            ((List.range len).map fun i =>
              (Owner.tupleTy (.tuple elems), Designator.index i))
            types)
      | .error s => .error s
  | .path s => .ok (.leaf s)
  | .other _ => .error "not implemented"

/-- `get_datatype` mapped over a list of types, the first panic
aborting the whole build. -/
def getDatatypeList : List Ty → Except String (List Datatype)
  | [] => .ok []
  | t :: ts =>
      match getDatatype t with
      | .error s => .error s
      | .ok d =>
          match getDatatypeList ts with
          | .error s => .error s
          | .ok ds => .ok (d :: ds)

end

/-- Embedding of `create_struct_datatype` (`src/lib.rs` lines 47-94).
Named and unnamed (tuple-)structs emit
`structured(len, [1; len], offsets, field descriptors)`, with offsets
computed by `offset_of_field` against the struct name and the field
name resp. the 0-based field index; unit structs, enums and unions
panic (`unimplemented!`). -/
def create_struct_datatype (struct_name : String) : Data → Except String Datatype
  | .struct_ (.named fields) =>
      match getDatatypeList (fields.map Prod.snd) with
      | .error s => .error s
      | .ok types =>
          let len := fields.length
          .ok (.structured (asI32 len)
            (List.replicate (i32AsUsize (asI32 len)) 1)
            (fields.map fun f => (Owner.ident struct_name, Designator.name f.1))
            types)
  | .struct_ (.unnamed fields) =>
      match getDatatypeList fields with
      | .error s => .error s
      | .ok types =>
          let len := fields.length
          .ok (.structured (asI32 len)
            (List.replicate (i32AsUsize (asI32 len)) 1)
            ((List.range len).map fun i =>
              (Owner.ident struct_name, Designator.index i))
            types)
  | .struct_ .unit => .error "not implemented"
  | .enum_ => .error "not implemented: Enums and unions are not implemented yet"
  | .union_ => .error "not implemented: Enums and unions are not implemented yet"

mutual

/-- The invariant of §3 of the spec checked at every internal node of a
descriptor: `count` equals the number of offsets, which equals the
number of child descriptors, and every blocklength (per-field repeat
count) equals `1`. -/
def wfD : Datatype → Bool
  | .structured count bl offs tys =>
      (count == ((offs.length : Nat) : Int)) && (offs.length == tys.length) &&
      (bl.all fun b => b == 1) && wfDList tys
  | .contiguous _ e => wfD e
  | .leaf _ => true

/-- `wfD` over every descriptor in a list. -/
def wfDList : List Datatype → Bool
  | [] => true
  | d :: ds => wfD d && wfDList ds

end

mutual

/-- Every tuple occurring in the type has fewer than `2 ^ 31` elements,
so the `usize`-to-`i32` count casts in the generated code are exact. -/
def smallTy : Ty → Bool
  | .array e _ => smallTy e
  | .tuple es => decide (es.length < 2 ^ 31) && smallTyList es
  | .path _ => true
  | .other _ => true

/-- `smallTy` over a list of types. -/
def smallTyList : List Ty → Bool
  | [] => true
  | t :: ts => smallTy t && smallTyList ts

end

/-- The struct has fewer than `2 ^ 31` fields and every field type
satisfies `smallTy`. -/
def smallData : Data → Bool
  | .struct_ (.named fields) =>
      decide (fields.length < 2 ^ 31) && smallTyList (fields.map Prod.snd)
  | .struct_ (.unnamed fields) =>
      decide (fields.length < 2 ^ 31) && smallTyList fields
  | .struct_ .unit => true
  | .enum_ => true
  | .union_ => true

mutual

/-- Nesting depth of a type: the number of nested array/tuple levels the
recursion of `get_datatype` must traverse, counting the node itself. -/
def depth : Ty → Nat
  | .array e _ => depth e + 1
  | .tuple es => depthList es + 1
  | .path _ => 1
  | .other _ => 1

/-- Maximal `depth` over a list of types. -/
def depthList : List Ty → Nat
  | [] => 0
  | t :: ts => max (depth t) (depthList ts)

end

mutual

/-- Fuel-indexed variant of `getDatatype`: each unit of fuel pays for one
level of nesting, and the function gives up (`none`) when the fuel runs
out, so agreement with `getDatatype` expresses that the recursion is
bounded by the nesting depth. -/
def getDatatypeFuel : Nat → Ty → Option (Except String Datatype)
  | 0, _ => none
  | fuel + 1, .array elem len =>
      match getDatatypeFuel fuel elem with
      | none => none
      | some (.ok e) => some (.ok (.contiguous len e))
      | some (.error s) => some (.error s)
  | fuel + 1, .tuple elems =>
      match getDatatypeListFuel fuel elems with
      | none => none
      | some (.ok types) =>
          let len := elems.length
          some (.ok (.structured (asI32 len)
            (List.replicate (i32AsUsize (asI32 len)) 1)
            ((List.range len).map fun i =>
              (Owner.tupleTy (.tuple elems), Designator.index i))
            types))
      | some (.error s) => some (.error s)
  | _ + 1, .path s => some (.ok (.leaf s))
  | _ + 1, .other _ => some (.error "not implemented")
termination_by fuel _ => (fuel, 0)

/-- Fuel-indexed variant of `getDatatypeList`; the fuel only pays for
nesting, not for list position. -/
def getDatatypeListFuel : Nat → List Ty → Option (Except String (List Datatype))
  | _, [] => some (.ok [])
  | fuel, t :: ts =>
      match getDatatypeFuel fuel t with
      | none => none
      | some (.error s) => some (.error s)
      | some (.ok d) =>
          match getDatatypeListFuel fuel ts with
          | none => none
          | some (.error s) => some (.error s)
          | some (.ok ds) => some (.ok (d :: ds))
termination_by fuel ts => (fuel, ts.length + 1)

end

/-- Replace each field designator in an offset list by its 0-based
position, keeping the owners: the spec's phrase for how a positional
record's offsets relate to a named record's. -/
def reindexFrom (i : Nat) : List (Owner × Designator) → List (Owner × Designator)
  | [] => []
  | o :: os => (o.1, Designator.index i) :: reindexFrom (i + 1) os

/-- Modelled from the spec: a named-field descriptor with its top-level
field designators replaced by 0-based positional indices ("identical
..., but field designators are 0-based positional indices rather than
names"). -/
def toPositionalTop : Datatype → Datatype
  | .structured c bl offs tys => .structured c bl (reindexFrom 0 offs) tys
  | .contiguous len e => .contiguous len e
  | .leaf s => .leaf s

theorem asI32_of_lt {n : Nat} (h : n < 2 ^ 31) : asI32 n = (n : Int) := by
  have h1 : (n : Int) < 2 ^ 31 := by exact_mod_cast h
  have h2 : (n : Int) < 2 ^ 32 := lt_trans h1 (by norm_num)
  simp only [asI32]
  rw [Int.emod_eq_of_lt (Int.ofNat_nonneg n) h2]
  rw [if_pos h1]

theorem i32AsUsize_coe_of_lt {n : Nat} (h : n < 2 ^ 31) : i32AsUsize (n : Int) = n := by
  have h1 : (n : Int) < 2 ^ 31 := by exact_mod_cast h
  have h2 : (n : Int) < 2 ^ 64 := lt_trans h1 (by norm_num)
  simp only [i32AsUsize]
  rw [Int.emod_eq_of_lt (Int.ofNat_nonneg n) h2]
  simp

theorem all_replicate_one (k : Nat) :
    (List.replicate k (1 : Int)).all (fun b => b == 1) = true := by
  simp only [List.all_eq_true]
  intro b hb
  have hb1 : b = 1 := List.eq_of_mem_replicate hb
  simp [hb1]

theorem getDatatypeList_ok_of_forall₂ (ts : List Ty) (ds : List Datatype)
    (h : List.Forall₂ (fun t d => getDatatype t = .ok d) ts ds) :
    getDatatypeList ts = .ok ds := by
  induction h with
  | nil => simp [getDatatypeList]
  | cons h1 _ ih => simp [getDatatypeList, h1, ih]

theorem forall₂_of_getDatatypeList_ok (ts : List Ty) (ds : List Datatype)
    (h : getDatatypeList ts = .ok ds) :
    List.Forall₂ (fun t d => getDatatype t = .ok d) ts ds := by
  induction ts generalizing ds with
  | nil =>
      simp only [getDatatypeList] at h
      injection h with h
      subst h
      exact .nil
  | cons t ts ih =>
      simp only [getDatatypeList] at h
      cases hg : getDatatype t with
      | error s => rw [hg] at h; cases h
      | ok d =>
          rw [hg] at h
          cases hl : getDatatypeList ts with
          | error s => rw [hl] at h; cases h
          | ok ds' =>
              rw [hl] at h
              injection h with h
              subst h
              exact .cons hg (ih ds' hl)

theorem getDatatypeList_length (ts : List Ty) (ds : List Datatype)
    (h : getDatatypeList ts = .ok ds) : ds.length = ts.length :=
  (forall₂_of_getDatatypeList_ok ts ds h).length_eq.symm

theorem wfD_structured_of (n : Nat) (offs : List (Owner × Designator))
    (types : List Datatype) (hn : n < 2 ^ 31) (ho : offs.length = n)
    (ht : types.length = n) (hw : wfDList types = true) :
    wfD (.structured (asI32 n) (List.replicate (i32AsUsize (asI32 n)) 1) offs types)
      = true := by
  rw [asI32_of_lt hn, i32AsUsize_coe_of_lt hn]
  simp only [wfD, Bool.and_eq_true]
  refine ⟨⟨⟨?_, ?_⟩, ?_⟩, hw⟩
  · simp [ho]
  · simp [ho, ht]
  · exact all_replicate_one n

mutual

theorem wfD_of_getDatatype (t : Ty) (d : Datatype) (hs : smallTy t = true)
    (h : getDatatype t = .ok d) : wfD d = true := by
  cases t with
  | array elem len =>
      simp only [getDatatype] at h
      cases hg : getDatatype elem with
      | error s => rw [hg] at h; cases h
      | ok e =>
          rw [hg] at h
          injection h with h
          subst h
          simp only [smallTy] at hs
          simp only [wfD]
          exact wfD_of_getDatatype elem e hs hg
  | tuple elems =>
      simp only [getDatatype] at h
      cases hl : getDatatypeList elems with
      | error s => rw [hl] at h; cases h
      | ok types =>
          rw [hl] at h
          injection h with h
          subst h
          simp only [smallTy, Bool.and_eq_true, decide_eq_true_eq] at hs
          exact wfD_structured_of elems.length _ types hs.1 (by simp)
            (getDatatypeList_length elems types hl)
            (wfDList_of_getDatatypeList elems types hs.2 hl)
  | path s =>
      simp only [getDatatype] at h
      injection h with h
      subst h
      simp [wfD]
  | other s =>
      simp only [getDatatype] at h
      cases h

theorem wfDList_of_getDatatypeList (ts : List Ty) (ds : List Datatype)
    (hs : smallTyList ts = true) (h : getDatatypeList ts = .ok ds) :
    wfDList ds = true := by
  cases ts with
  | nil =>
      simp only [getDatatypeList] at h
      injection h with h
      subst h
      simp [wfDList]
  | cons t ts =>
      simp only [getDatatypeList] at h
      cases hg : getDatatype t with
      | error s => rw [hg] at h; cases h
      | ok d =>
          rw [hg] at h
          cases hl : getDatatypeList ts with
          | error s => rw [hl] at h; cases h
          | ok ds' =>
              rw [hl] at h
              injection h with h
              subst h
              simp only [smallTyList, Bool.and_eq_true] at hs
              simp only [wfDList, Bool.and_eq_true]
              exact ⟨wfD_of_getDatatype t d hs.1 hg,
                wfDList_of_getDatatypeList ts ds' hs.2 hl⟩

end

mutual

theorem getDatatypeFuel_eq_of_depth_le (t : Ty) (fuel : Nat) (h : depth t ≤ fuel) :
    getDatatypeFuel fuel t = some (getDatatype t) := by
  cases fuel with
  | zero =>
      exfalso
      cases t <;> simp [depth] at h
  | succ f =>
      cases t with
      | array elem len =>
          have h' : depth elem ≤ f := by
            simp only [depth] at h
            omega
          simp only [getDatatypeFuel, getDatatype,
            getDatatypeFuel_eq_of_depth_le elem f h']
          cases getDatatype elem <;> rfl
      | tuple elems =>
          have h' : depthList elems ≤ f := by
            simp only [depth] at h
            omega
          simp only [getDatatypeFuel, getDatatype,
            getDatatypeListFuel_eq_of_depth_le elems f h']
          cases getDatatypeList elems <;> rfl
      | path s => simp [getDatatypeFuel, getDatatype]
      | other s => simp [getDatatypeFuel, getDatatype]
termination_by (fuel, 0)

theorem getDatatypeListFuel_eq_of_depth_le (ts : List Ty) (fuel : Nat)
    (h : depthList ts ≤ fuel) :
    getDatatypeListFuel fuel ts = some (getDatatypeList ts) := by
  cases ts with
  | nil => simp [getDatatypeListFuel, getDatatypeList]
  | cons t ts =>
      have h1 : depth t ≤ fuel := by
        simp only [depthList] at h
        omega
      have h2 : depthList ts ≤ fuel := by
        simp only [depthList] at h
        omega
      simp only [getDatatypeListFuel, getDatatypeList,
        getDatatypeFuel_eq_of_depth_le t fuel h1,
        getDatatypeListFuel_eq_of_depth_le ts fuel h2]
      cases getDatatype t <;> cases getDatatypeList ts <;> rfl
termination_by (fuel, ts.length + 1)

end

theorem reindexFrom_map_const {α : Type} (o : String) (g : α → Designator)
    (l : List α) (i : Nat) :
    reindexFrom i (l.map fun x => (Owner.ident o, g x)) =
      (List.range' i l.length).map fun j => (Owner.ident o, Designator.index j) := by
  induction l generalizing i with
  | nil => simp [reindexFrom]
  | cons x xs ih => simp [reindexFrom, List.range'_succ, ih]

/-- C1: for every named-field record shape with N fields, the builder
produces a descriptor whose field count equals N, whose per-field repeat
multiplicities are all 1, whose offsets are the offset resolver applied
to (owning type, field name) for each field in declaration order, and
whose child descriptors are the builder applied recursively to each
field's type in that same order. -/
theorem named_record_descriptor (sn : String) (fields : List (String × Ty))
    (ds : List Datatype)
    (hf : List.Forall₂ (fun t d => getDatatype t = .ok d) (fields.map Prod.snd) ds)
    (hN : fields.length < 2 ^ 31) :
    create_struct_datatype sn (.struct_ (.named fields)) =
      .ok (.structured (fields.length : Int) (List.replicate fields.length 1)
        (fields.map fun f => (Owner.ident sn, Designator.name f.1)) ds) := by
  have hok := getDatatypeList_ok_of_forall₂ _ _ hf
  simp [create_struct_datatype, hok, asI32_of_lt hN, i32AsUsize_coe_of_lt hN]

/-- Witness for C1 at the two-field record with fields re, im of type f64. -/
theorem named_record_descriptor_witness :
    List.Forall₂ (fun t d => getDatatype t = .ok d)
      ([("re", Ty.path "f64"), ("im", Ty.path "f64")].map Prod.snd)
      [.leaf "f64", .leaf "f64"] ∧
    [("re", Ty.path "f64"), ("im", Ty.path "f64")].length < 2 ^ 31 ∧
    create_struct_datatype "Complex"
        (.struct_ (.named [("re", .path "f64"), ("im", .path "f64")])) =
      .ok (.structured 2 [1, 1]
        [(Owner.ident "Complex", Designator.name "re"),
          (Owner.ident "Complex", Designator.name "im")]
        [.leaf "f64", .leaf "f64"]) :=
  ⟨.cons rfl (.cons rfl .nil), by decide,
    by
      have h := named_record_descriptor "Complex"
        [("re", .path "f64"), ("im", .path "f64")] [.leaf "f64", .leaf "f64"]
        (.cons rfl (.cons rfl .nil)) (by decide)
      simpa using h⟩

/-- C2: for every fixed-size array shape of length L with element type E,
the builder produces a contiguous-replication descriptor whose single
child is the builder's result on E, with no per-element offsets; a
different length changes only the replication factor, never the element
descriptor. -/
theorem array_descriptor (E : Ty) (d : Datatype) (L M : Nat)
    (h : getDatatype E = .ok d) :
    getDatatype (.array E L) = .ok (.contiguous L d) ∧
    getDatatype (.array E M) = .ok (.contiguous M d) := by
  constructor <;> simp [getDatatype, h]

/-- Witness for C2 at element type f64 with lengths 3 and 7. -/
theorem array_descriptor_witness :
    getDatatype (Ty.path "f64") = .ok (.leaf "f64") ∧
    getDatatype (.array (.path "f64") 3) = .ok (.contiguous 3 (.leaf "f64")) ∧
    getDatatype (.array (.path "f64") 7) = .ok (.contiguous 7 (.leaf "f64")) :=
  ⟨rfl, (array_descriptor (.path "f64") (.leaf "f64") 3 7 rfl).1,
    (array_descriptor (.path "f64") (.leaf "f64") 3 7 rfl).2⟩

/-- C3: for every tuple shape with N element types, the builder produces
a descriptor with field count N, offsets computed per 0-based
tuple-element index against the tuple type itself, and child
descriptors equal to the builder applied recursively to each element
type in order. -/
theorem tuple_descriptor (elems : List Ty) (ds : List Datatype)
    (hf : List.Forall₂ (fun t d => getDatatype t = .ok d) elems ds)
    (hN : elems.length < 2 ^ 31) :
    getDatatype (.tuple elems) =
      .ok (.structured (elems.length : Int) (List.replicate elems.length 1)
        ((List.range elems.length).map fun i =>
          (Owner.tupleTy (.tuple elems), Designator.index i)) ds) := by
  have hok := getDatatypeList_ok_of_forall₂ _ _ hf
  simp [getDatatype, hok, asI32_of_lt hN, i32AsUsize_coe_of_lt hN]

/-- Witness for C3 at the tuple (i32, f64, u8). -/
theorem tuple_descriptor_witness :
    List.Forall₂ (fun t d => getDatatype t = .ok d)
      [Ty.path "i32", Ty.path "f64", Ty.path "u8"]
      [.leaf "i32", .leaf "f64", .leaf "u8"] ∧
    [Ty.path "i32", Ty.path "f64", Ty.path "u8"].length < 2 ^ 31 ∧
    getDatatype (.tuple [.path "i32", .path "f64", .path "u8"]) =
      .ok (.structured 3 [1, 1, 1]
        [(Owner.tupleTy (.tuple [.path "i32", .path "f64", .path "u8"]),
            Designator.index 0),
          (Owner.tupleTy (.tuple [.path "i32", .path "f64", .path "u8"]),
            Designator.index 1),
          (Owner.tupleTy (.tuple [.path "i32", .path "f64", .path "u8"]),
            Designator.index 2)]
        [.leaf "i32", .leaf "f64", .leaf "u8"]) :=
  ⟨.cons rfl (.cons rfl (.cons rfl .nil)), by decide,
    by
      have h := tuple_descriptor [.path "i32", .path "f64", .path "u8"]
        [.leaf "i32", .leaf "f64", .leaf "u8"]
        (.cons rfl (.cons rfl (.cons rfl .nil))) (by decide)
      simpa [List.range_succ] using h⟩

/-- C4: for every fieldless (unit-like) composite shape, every enum shape
and every union shape, the builder fails (the panics at `src/lib.rs`
lines 89 and 92) and, the result being an error, never returns any
descriptor. -/
theorem unsupported_shape_rejected (sn : String) :
    create_struct_datatype sn (.struct_ .unit) = .error "not implemented" ∧
    create_struct_datatype sn .enum_ =
      .error "not implemented: Enums and unions are not implemented yet" ∧
    create_struct_datatype sn .union_ =
      .error "not implemented: Enums and unions are not implemented yet" :=
  ⟨rfl, rfl, rfl⟩

/-- C5: every descriptor the builder returns satisfies, at every internal
node, that the count equals the number of offsets and the number of
child descriptors, and that every per-field repeat count equals 1
(under the `smallData` bound making the i32 count casts exact). -/
theorem descriptor_invariants (sn : String) (d : Data) (dt : Datatype)
    (hs : smallData d = true) (h : create_struct_datatype sn d = .ok dt) :
    wfD dt = true := by
  cases d with
  | struct_ fs =>
      cases fs with
      | named fields =>
          simp only [create_struct_datatype] at h
          cases hl : getDatatypeList (fields.map Prod.snd) with
          | error s => rw [hl] at h; cases h
          | ok types =>
              rw [hl] at h
              injection h with h
              subst h
              simp only [smallData, Bool.and_eq_true, decide_eq_true_eq] at hs
              exact wfD_structured_of fields.length _ types hs.1 (by simp)
                (by simpa using getDatatypeList_length _ _ hl)
                (wfDList_of_getDatatypeList _ _ hs.2 hl)
      | unnamed fields =>
          simp only [create_struct_datatype] at h
          cases hl : getDatatypeList fields with
          | error s => rw [hl] at h; cases h
          | ok types =>
              rw [hl] at h
              injection h with h
              subst h
              simp only [smallData, Bool.and_eq_true, decide_eq_true_eq] at hs
              exact wfD_structured_of fields.length _ types hs.1 (by simp)
                (getDatatypeList_length _ _ hl)
                (wfDList_of_getDatatypeList _ _ hs.2 hl)
      | unit => simp only [create_struct_datatype] at h; cases h
  | enum_ => simp only [create_struct_datatype] at h; cases h
  | union_ => simp only [create_struct_datatype] at h; cases h

/-- Witness for C5 at a record holding a leaf field and an array-of-tuple
field. -/
theorem descriptor_invariants_witness :
    smallData (.struct_ (.named
      [("a", .path "i32"), ("b", .array (.tuple [.path "u8", .path "u16"]) 4)]))
      = true ∧
    create_struct_datatype "S" (.struct_ (.named
      [("a", .path "i32"), ("b", .array (.tuple [.path "u8", .path "u16"]) 4)]))
      = .ok (.structured 2 [1, 1]
        [(Owner.ident "S", Designator.name "a"),
          (Owner.ident "S", Designator.name "b")]
        [.leaf "i32",
          .contiguous 4 (.structured 2 [1, 1]
            [(Owner.tupleTy (.tuple [.path "u8", .path "u16"]), Designator.index 0),
              (Owner.tupleTy (.tuple [.path "u8", .path "u16"]), Designator.index 1)]
            [.leaf "u8", .leaf "u16"])]) ∧
    wfD (.structured 2 [1, 1]
        [(Owner.ident "S", Designator.name "a"),
          (Owner.ident "S", Designator.name "b")]
        [.leaf "i32",
          .contiguous 4 (.structured 2 [1, 1]
            [(Owner.tupleTy (.tuple [.path "u8", .path "u16"]), Designator.index 0),
              (Owner.tupleTy (.tuple [.path "u8", .path "u16"]), Designator.index 1)]
            [.leaf "u8", .leaf "u16"])]) = true :=
  ⟨rfl, rfl,
    descriptor_invariants "S" (.struct_ (.named
      [("a", .path "i32"), ("b", .array (.tuple [.path "u8", .path "u16"]) 4)]))
      _ (by decide) rfl⟩

/-- C6: the builder is a pure function of its input, so building twice
for the same shape yields structurally identical results; any two
results of the same invocation are equal. -/
theorem build_deterministic (sn : String) (d : Data) (t : Ty)
    (r₁ r₂ u₁ u₂ : Except String Datatype)
    (h₁ : create_struct_datatype sn d = r₁) (h₂ : create_struct_datatype sn d = r₂)
    (g₁ : getDatatype t = u₁) (g₂ : getDatatype t = u₂) :
    r₁ = r₂ ∧ u₁ = u₂ :=
  ⟨h₁.symm.trans h₂, g₁.symm.trans g₂⟩

/-- Witness for C6 at a one-field record and a leaf type. -/
theorem build_deterministic_witness :
    create_struct_datatype "P" (.struct_ (.named [("x", .path "i32")])) =
      .ok (.structured 1 [1] [(Owner.ident "P", Designator.name "x")] [.leaf "i32"]) ∧
    (.ok (.structured 1 [1] [(Owner.ident "P", Designator.name "x")] [.leaf "i32"])
        : Except String Datatype) =
      .ok (.structured 1 [1] [(Owner.ident "P", Designator.name "x")] [.leaf "i32"]) ∧
    (.ok (.leaf "u8") : Except String Datatype) = .ok (.leaf "u8") :=
  ⟨rfl,
    (build_deterministic "P" (.struct_ (.named [("x", .path "i32")])) (.path "u8")
      _ _ _ _ rfl rfl rfl rfl).1,
    (build_deterministic "P" (.struct_ (.named [("x", .path "i32")])) (.path "u8")
      _ _ _ _ rfl rfl rfl rfl).2⟩

/-- C7: for every shape of finite nesting depth the builder terminates:
the fuel-indexed variant of the recursion, given fuel at least the
nesting depth, never exhausts its fuel and agrees with the builder. -/
theorem builder_terminates_within_depth (t : Ty) (fuel : Nat)
    (h : depth t ≤ fuel) :
    getDatatypeFuel fuel t = some (getDatatype t) :=
  getDatatypeFuel_eq_of_depth_le t fuel h

/-- Witness for C7 at a depth-3 shape with fuel 3. -/
theorem builder_terminates_within_depth_witness :
    depth (.array (.tuple [.path "u8"]) 2) ≤ 3 ∧
    getDatatypeFuel 3 (.array (.tuple [.path "u8"]) 2) =
      some (getDatatype (.array (.tuple [.path "u8"]) 2)) :=
  ⟨by decide,
    builder_terminates_within_depth (.array (.tuple [.path "u8"]) 2) 3 (by decide)⟩

/-- C8: for every positional (tuple-struct) record shape, the builder's
output is identical to the one for a named-field record with the same
field types in the same order, except that the top-level field
designators are the 0-based positional indices instead of the names. -/
theorem positional_record_matches_named (sn : String) (names : List String)
    (tys : List Ty) (h : names.length = tys.length) :
    create_struct_datatype sn (.struct_ (.unnamed tys)) =
      Except.map toPositionalTop
        (create_struct_datatype sn (.struct_ (.named (names.zip tys)))) := by
  have hsnd : (names.zip tys).map Prod.snd = tys :=
    List.map_snd_zip names tys (le_of_eq h.symm)
  have hlen : (names.zip tys).length = tys.length := by
    simp [List.length_zip, h]
  simp only [create_struct_datatype, hsnd, hlen]
  cases hgl : getDatatypeList tys with
  | error s => rfl
  | ok ds =>
      simp only [Except.map, toPositionalTop]
      rw [reindexFrom_map_const sn (fun f => Designator.name f.1) (names.zip tys) 0]
      simp [hlen, List.range_eq_range']

/-- Witness for C8 at a two-field tuple struct against the named record
with fields x, y of the same types. -/
theorem positional_record_matches_named_witness :
    (["x", "y"] : List String).length = ([.path "i32", .path "u8"] : List Ty).length ∧
    create_struct_datatype "Pair" (.struct_ (.unnamed [.path "i32", .path "u8"])) =
      Except.map toPositionalTop
        (create_struct_datatype "Pair" (.struct_ (.named
          (["x", "y"].zip [.path "i32", .path "u8"])))) :=
  ⟨by decide,
    positional_record_matches_named "Pair" ["x", "y"] [.path "i32", .path "u8"]
      (by decide)⟩

/-- C9 counterexample: the claim says the build-time failure for a
non-decomposable element type names the offending type, but the failure
is the constant panic message "not implemented" for every such type:
two distinct offending element types produce identical failures. -/
theorem unreachable_element_failure_counterexample :
    getDatatype (.array (.other "&u8") 3) = .error "not implemented" ∧
    getDatatype (.array (.other "*const u8") 3) = .error "not implemented" ∧
    Ty.other "&u8" ≠ Ty.other "*const u8" :=
  ⟨rfl, rfl, by
    intro hc
    injection hc with hc
    exact absurd hc (by decide)⟩

/-- C9 amended: for every array or tuple element type that is not
decomposable (not a path, array or tuple type), the build fails fatally
at build time, but with the generic panic message "not implemented"
that is the same for every offending type and so does not name it. -/
theorem unreachable_element_fails_generic (s₁ s₂ : String) (L : Nat) :
    getDatatype (.other s₁) = .error "not implemented" ∧
    getDatatype (.array (.other s₁) L) = .error "not implemented" ∧
    getDatatype (.tuple [.other s₁]) = .error "not implemented" ∧
    getDatatype (.other s₁) = getDatatype (.other s₂) := by
  refine ⟨rfl, ?_, ?_, rfl⟩ <;> simp [getDatatype, getDatatypeList]

/-- C10: a zero-length array type and the zero-element tuple type are
accepted by the builder, yielding a contiguous descriptor of factor 0
resp. a structured descriptor with count 0 and empty offset and child
lists, also when they appear as field types of a record. -/
theorem zero_size_components_accepted (sn : String) (T : Ty) (d : Datatype)
    (h : getDatatype T = .ok d) :
    getDatatype (.array T 0) = .ok (.contiguous 0 d) ∧
    getDatatype (.tuple []) = .ok (.structured 0 [] [] []) ∧
    create_struct_datatype sn
        (.struct_ (.named [("f", .array T 0), ("g", .tuple [])])) =
      .ok (.structured 2 [1, 1]
        [(Owner.ident sn, Designator.name "f"),
          (Owner.ident sn, Designator.name "g")]
        [.contiguous 0 d, .structured 0 [] [] []]) := by
  have h2 : asI32 2 = 2 := by decide
  have h2u : i32AsUsize 2 = 2 := by decide
  have h0 : asI32 0 = 0 := by decide
  have h0u : i32AsUsize 0 = 0 := by decide
  have hl : getDatatypeList [Ty.array T 0, Ty.tuple []] =
      .ok [.contiguous 0 d, .structured 0 [] [] []] := by
    simp [getDatatypeList, getDatatype, h, h0, h0u]
  refine ⟨by simp [getDatatype, h], rfl, ?_⟩
  simp [create_struct_datatype, hl, h2, h2u, List.replicate_succ]

/-- Witness for C10 at element type u8. -/
theorem zero_size_components_accepted_witness :
    getDatatype (Ty.path "u8") = .ok (.leaf "u8") ∧
    getDatatype (.array (.path "u8") 0) = .ok (.contiguous 0 (.leaf "u8")) ∧
    getDatatype (.tuple []) = .ok (.structured 0 [] [] []) ∧
    create_struct_datatype "Z"
        (.struct_ (.named [("f", .array (.path "u8") 0), ("g", .tuple [])])) =
      .ok (.structured 2 [1, 1]
        [(Owner.ident "Z", Designator.name "f"),
          (Owner.ident "Z", Designator.name "g")]
        [.contiguous 0 (.leaf "u8"), .structured 0 [] [] []]) :=
  ⟨rfl,
    (zero_size_components_accepted "Z" (.path "u8") (.leaf "u8") rfl).1,
    (zero_size_components_accepted "Z" (.path "u8") (.leaf "u8") rfl).2.1,
    (zero_size_components_accepted "Z" (.path "u8") (.leaf "u8") rfl).2.2⟩
